import Mathlib

/-!
# xruns: per-channel xrun counters of a sound device

A shallow embedding of `xruns.c`.

* C strings are lists of bytes (the bytes before the terminating NUL).
* `uint64_t` values are naturals; every arithmetic step that can wrap is
  written with an explicit `% 2 ^ 64`.
* `int` values are integers; a conversion from `uint64_t` to `int` keeps the
  low 32 bits (two's complement).
* The fixed array `chans[MAX_CHANNELS]` is a list that is read with a default
  and written with `List.set`; a state coming from C has
  `chans.length = MAX_CHANNELS`.
* Everything the program obtains from the system (`/dev/sndstat`, the unpacked
  nvlist, the default unit, the clock) is an explicit input.
* The unpacked nvlist is a record that holds every key the source reads
  without testing for it (`nvlist_get_*` ends the process on a missing key);
  the keys the source tests with `nvlist_exists` are optional fields.
* What is printed is a list of structured lines, one per `printf`; diagnostics
  on the standard error stream are not part of the model.
-/

namespace Xruns

/-! ## Data model -/

/-- A C string: the bytes in front of the terminating NUL. -/
abbrev CStr := List Nat

/-- The bytes of an ASCII literal, used to write examples. -/
def cstr (s : String) : CStr := s.data.map Char.toNat

/-- The constant `MAX_CHANNELS`. -/
def MAX_CHANNELS : Nat := 64

/-- The record `struct chan_xruns`. -/
structure chan_xruns where
  name : CStr
  direction : Int
  xruns : Nat
  prev_xruns : Nat
  active : Bool
  deriving DecidableEq

/-- The record `struct xruns_state`. -/
structure xruns_state where
  unit : Int
  devname : CStr
  chans : List chan_xruns
  nchan : Nat
  deriving DecidableEq

/-- An all-zero `struct chan_xruns`. -/
def chan_zero : chan_xruns :=
  { name := [], direction := 0, xruns := 0, prev_xruns := 0, active := false }

/-- The initialiser `struct xruns_state state = {0}`. -/
def state_zero : xruns_state :=
  { unit := 0, devname := [], chans := List.replicate MAX_CHANNELS chan_zero, nchan := 0 }

/-- The array access `state->chans[i]`. -/
def chan_at (state : xruns_state) (i : Nat) : chan_xruns :=
  state.chans.getD i chan_zero

/-- The channels of a snapshot: `chans[0]`, ..., `chans[nchan - 1]`. -/
def channels (state : xruns_state) : List chan_xruns :=
  (List.range state.nchan).map (chan_at state)

/-- The test `strcmp(a, b) == 0` on NUL-free byte strings. -/
def strcmp_eq (a b : CStr) : Bool := a == b

/-- The call `strlcpy(dst, src, size)`: at most `size - 1` bytes are copied. -/
def strlcpy (src : CStr) (size : Nat) : CStr := src.take (size - 1)

/-- Conversion of an integer value to `int`: the low 32 bits, two's complement. -/
def to_int (n : Int) : Int :=
  let m := n % 2 ^ 32
  if m < 2 ^ 31 then m else m - 2 ^ 32

/-- Subtraction of two `uint64_t` values, as in `ch->xruns - prev`. -/
def u64_sub (a b : Nat) : Nat := (a % 2 ^ 64 + 2 ^ 64 - b % 2 ^ 64) % 2 ^ 64

/-! ## Output -/

/-- One line written to the standard output.
`watching` is `"Watching xruns on pcm%d (Ctrl+C to stop)...\n"`, `header` is `"%s:\n"`, `line` is `"%s: %lu xruns\n"` with an optional time stamp
in front, `line_delta` is `"%s %s: %lu xruns (+%lu)\n"`. -/
inductive out_line where
  | watching (unit : Int)
  | header (devname : CStr)
  | line (ts : Option CStr) (name : CStr) (xruns : Nat)
  | line_delta (ts : CStr) (name : CStr) (xruns : Nat) (delta : Nat)
  deriving DecidableEq

/-- The delta shown on a line, when the line has one. -/
def out_line.delta? : out_line → Option Nat
  | .line_delta _ _ _ d => some d
  | _ => none

/-- The channel name and the count shown on a line. -/
def out_line.shown : out_line → Option (CStr × Nat)
  | .watching _ => none
  | .header _ => none
  | .line _ n x => some (n, x)
  | .line_delta _ n x _ => some (n, x)

/-! ## print_xruns -/

/-- The loop body of `print_xruns` for the channel `ch`; `ts` is the text
`get_timestamp` produced. -/
def print_chan (ts : CStr) (play_only show_timestamp : Bool) (ch : chan_xruns) :
    Option out_line :=
  if play_only && ch.direction == 0 then none
  else if show_timestamp then some (.line (some ts) ch.name ch.xruns)
  else some (.line none ch.name ch.xruns)

/-- The function `print_xruns`: the lines it prints, in order. -/
def print_xruns (ts : CStr) (state : xruns_state) (play_only show_timestamp : Bool) :
    List out_line :=
  (List.range state.nchan).filterMap
    (fun i => print_chan ts play_only show_timestamp (chan_at state i))

/-! ## The diff step of watch_xruns -/

/-- The inner loop of `watch_xruns`: `prev` starts at 0 and takes the count of
the first `prev_state.chans[k]`, `k < prev_state.nchan`, with the same name. -/
def find_prev (prev_state : xruns_state) (name : CStr) : Nat :=
  match (List.range prev_state.nchan).find?
      (fun k => strcmp_eq (chan_at prev_state k).name name) with
  | some k => (chan_at prev_state k).xruns
  | none => 0

/-- The body of the channel loop of `watch_xruns` at index `i`; `clock i` is the
text `get_timestamp` produces there. -/
def watch_chan (clock : Nat → CStr) (first_run : Bool) (prev_state : xruns_state)
    (play_only : Bool) (i : Nat) (ch : chan_xruns) : Option out_line :=
  if play_only && ch.direction == 0 then none
  else
    let prev : Nat := if !first_run then find_prev prev_state ch.name else 0
    if decide (ch.xruns > 0) && (first_run || ch.xruns != prev) then
      if first_run || prev == 0 then some (.line (some (clock i)) ch.name ch.xruns)
      else some (.line_delta (clock i) ch.name ch.xruns (u64_sub ch.xruns prev))
    else none

/-- The channel loop of `watch_xruns` (lines 264-294): the lines one tick prints. -/
def watch_diff (clock : Nat → CStr) (first_run : Bool) (prev_state state : xruns_state)
    (play_only : Bool) : List out_line :=
  (List.range state.nchan).filterMap
    (fun i => watch_chan clock first_run prev_state play_only i (chan_at state i))

/-! ## What read_xruns obtains from the system -/

/-- Constants of the system headers that `read_xruns` uses:
the provider string `SNDST_DSPS_SOUND4_PROVIDER` of `<sys/sndstat.h>` and the
capability bit `PCM_CAP_INPUT` of `<sys/soundcard.h>`, a constant of type `int`.
The headers are not part of the program, so the constants are parameters. -/
structure sys_consts where
  SNDST_DSPS_SOUND4_PROVIDER : CStr
  PCM_CAP_INPUT : Nat
  deriving DecidableEq

/-- One entry of the array under `SNDST_DSPS_SOUND4_CHAN_INFO`: the string
`SNDST_DSPS_SOUND4_CHAN_NAME` and the numbers `SNDST_DSPS_SOUND4_CHAN_CAPS`
and `SNDST_DSPS_SOUND4_CHAN_XRUNS` (numbers of an nvlist are `uint64_t`). -/
structure chan_nv where
  name : CStr
  caps : Nat
  xruns : Nat
  deriving DecidableEq

/-- The nvlist under `SNDST_DSPS_PROVIDER_INFO`: the number
`SNDST_DSPS_SOUND4_UNIT` and, when present, the channel array. -/
structure pinfo_nv where
  unit : Nat
  chan_info : Option (List chan_nv)
  deriving DecidableEq

/-- One entry of the array under `SNDST_DSPS`: the strings
`SNDST_DSPS_PROVIDER` and `SNDST_DSPS_NAMEUNIT` and, when present, the
provider-info nvlist. -/
structure dsp_nv where
  provider : CStr
  nameunit : CStr
  provider_info : Option pinfo_nv
  deriving DecidableEq

/-- The unpacked top-level nvlist: the array under `SNDST_DSPS` when the key
exists, and the number of entries under other keys. -/
structure nvlist_top where
  dsps : Option (List dsp_nv)
  others : Nat
  deriving DecidableEq

/-- The call `nvlist_empty(nvl)`. -/
def nvlist_empty (nvl : nvlist_top) : Bool := nvl.dsps.isNone && nvl.others == 0

/-- The answers of the system to one call of `read_xruns`, in call order:
`open`, `ioctl(SNDSTIOC_REFRESH_DEVS)`, the sizing `ioctl(SNDSTIOC_GET_DEVS)`,
`malloc`, the filling `ioctl(SNDSTIOC_GET_DEVS)`, `nvlist_unpack`, and
`mixer_get_dunit()`. -/
structure sndstat_env where
  open_ok : Bool
  refresh_ok : Bool
  get_devs1_ok : Bool
  malloc_ok : Bool
  get_devs2_ok : Bool
  unpack : Option nvlist_top
  dunit : Int
  deriving DecidableEq

/-! ## read_xruns -/

/-- The device loop of `read_xruns` (lines 159-172): the first entry whose
provider is the sound(4) one, that has provider info, and whose unit, converted
to `int`, equals `target_unit`. `none` stands for `i == nitems`. -/
def find_dev (c : sys_consts) (target_unit : Int) : List dsp_nv → Option (dsp_nv × pinfo_nv)
  | [] => none
  | d :: rest =>
    if !strcmp_eq d.provider c.SNDST_DSPS_SOUND4_PROVIDER then find_dev c target_unit rest
    else
      match d.provider_info with
      | none => find_dev c target_unit rest
      | some pi =>
        if to_int (pi.unit % 2 ^ 64) = target_unit then some (d, pi)
        else find_dev c target_unit rest

/-- The direction computed at line 209-210:
`caps = nvlist_get_number(...); (caps & PCM_CAP_INPUT) ? 0 : 1` with `caps` an `int`. -/
def chan_direction (c : sys_consts) (caps : Nat) : Int :=
  if (caps % 2 ^ 32) &&& c.PCM_CAP_INPUT ≠ 0 then 0 else 1

/-- The body of the channel loop of `read_xruns` (lines 202-216) for the entry `e`. -/
def read_chan (c : sys_consts) (e : chan_nv) (state : xruns_state) : xruns_state :=
  let ch := chan_at state state.nchan
  let ch1 : chan_xruns :=
    { name := strlcpy e.name 256
      direction := chan_direction c e.caps
      prev_xruns := ch.xruns
      xruns := e.xruns % 2 ^ 64
      active := true }
  { state with chans := state.chans.set state.nchan ch1, nchan := state.nchan + 1 }

/-- The channel loop of `read_xruns` (line 201): the first argument is
`cdi[j]`, `cdi[j+1]`, ..., the second is `j`. -/
def read_chans (c : sys_consts) : List chan_nv → Nat → xruns_state → xruns_state
  | [], _, state => state
  | e :: rest, j, state =>
    if j < MAX_CHANNELS then read_chans c rest (j + 1) (read_chan c e state)
    else state

/-- The function `read_xruns`: the returned `int` and the state left in `*state`. -/
def read_xruns (c : sys_consts) (env : sndstat_env) (target_unit : Int)
    (state : xruns_state) : Int × xruns_state :=
  if !env.open_ok then (-1, state)
  else if !env.refresh_ok then (-1, state)
  else if !env.get_devs1_ok then (-1, state)
  else if !env.malloc_ok then (-1, state)
  else if !env.get_devs2_ok then (-1, state)
  else
    match env.unpack with
    | none => (-1, state)
    | some nvl =>
      if nvlist_empty nvl || !nvl.dsps.isSome then (-1, state)
      else
        let target_unit := if target_unit < 0 then env.dunit else target_unit
        match find_dev c target_unit (nvl.dsps.getD []) with
        | none => (-1, state)
        | some (d, pi) =>
          let state1 := { state with unit := target_unit, devname := strlcpy d.nameunit 64 }
          match pi.chan_info with
          | none => (-1, state1)
          | some cdi => (0, read_chans c cdi 0 { state1 with nchan := 0 })

/-! ## The loop of watch_xruns -/

/-- The variables of `watch_xruns` that live across iterations. -/
structure watch_vars where
  state : xruns_state
  prev_state : xruns_state
  first_run : Bool
  deriving DecidableEq

/-- The variables of `watch_xruns` when the loop is entered. -/
def watch_init : watch_vars :=
  { state := state_zero, prev_state := state_zero, first_run := true }

/-- What one iteration of the loop receives: the answers of the system and the
time stamps of the clock. -/
structure tick where
  env : sndstat_env
  clock : Nat → CStr

/-- One iteration of the loop of `watch_xruns` (lines 258-299): the variables
afterwards and the lines printed. The `sleep(interval)` that ends an iteration
changes no variable and prints nothing. -/
def watch_step (c : sys_consts) (target_unit : Int) (play_only : Bool) (t : tick)
    (v : watch_vars) : watch_vars × List out_line :=
  let r := read_xruns c t.env target_unit v.state
  if r.1 < 0 then ({ v with state := r.2 }, [])
  else
    ({ state := r.2, prev_state := r.2, first_run := false },
      watch_diff t.clock v.first_run v.prev_state r.2 play_only)

/-- The lines printed by the loop of `watch_xruns` over the given ticks, one list
per tick. -/
def watch_run (c : sys_consts) (target_unit : Int) (play_only : Bool) :
    List tick → watch_vars → List (List out_line)
  | [], _ => []
  | t :: rest, v =>
    (watch_step c target_unit play_only t v).2 ::
      watch_run c target_unit play_only rest (watch_step c target_unit play_only t v).1

/-- The function `watch_xruns` over the first ticks of its endless loop: the
line printed on entry (`dunit` is what `mixer_get_dunit()` returns there), then
the lines of each iteration. -/
def watch_xruns (c : sys_consts) (dunit : Int) (target_unit : Int) (play_only : Bool)
    (ticks : List tick) : List (List out_line) :=
  [.watching (if target_unit ≥ 0 then target_unit else dunit)] ::
    watch_run c target_unit play_only ticks watch_init

/-! ## main -/

/-- The test `isspace(c)` in the C locale. -/
def isspace (b : Nat) : Bool := b == 32 || (decide (9 ≤ b) && decide (b ≤ 13))

/-- The value of the longest prefix of decimal digits, starting from `acc`. -/
def digits_val : List Nat → Nat → Nat
  | [], acc => acc
  | b :: rest, acc =>
    if decide (48 ≤ b) && decide (b ≤ 57) then digits_val rest (10 * acc + (b - 48)) else acc

/-- The call `strtol(s, NULL, 10)` with a 64-bit `long`: white space, an
optional sign, decimal digits; out-of-range values are clamped. -/
def strtol10 (s : CStr) : Int :=
  match s.dropWhile isspace with
  | 45 :: rest => max (-(digits_val rest 0 : Int)) (-(2 ^ 63))
  | 43 :: rest => min (digits_val rest 0 : Int) (2 ^ 63 - 1)
  | rest => min (digits_val rest 0 : Int) (2 ^ 63 - 1)

/-- The call `atoi(s)` of the C library: `(int)strtol(s, NULL, 10)`. -/
def atoi (s : CStr) : Int := to_int (strtol10 s)

/-- The option variables of `main`. -/
structure main_vars where
  target_unit : Int
  interval : Int
  play_only : Bool
  watch_mode : Bool
  deriving DecidableEq

/-- The option variables of `main` before the option loop. -/
def main_vars_init : main_vars :=
  { target_unit := -1, interval := 1, play_only := false, watch_mode := false }

/-- How `main` ends: `errx(1, "invalid device number: %s", optarg)`, `usage()`
(which exits with status 1), entering `watch_xruns` (which does not return), or
returning a status after printing lines. -/
inductive main_end where
  | errx (status : Int) (optarg : CStr)
  | usage (status : Int)
  | watch (target_unit : Int) (play_only : Bool) (interval : Int)
  | ret (status : Int) (out : List out_line)
  deriving DecidableEq

/-- The option loop of `main` (lines 334-356) over the results of `getopt`:
each is the option character with its `optarg`. -/
def main_opts : List (Char × CStr) → main_vars → Except main_end main_vars
  | [], v => .ok v
  | (ch, optarg) :: rest, v =>
    if ch = 'd' then
      let target_unit := atoi optarg
      if target_unit < 0 then .error (.errx 1 optarg)
      else main_opts rest { v with target_unit := target_unit }
    else if ch = 'i' then
      let interval := atoi optarg
      main_opts rest { v with interval := if interval < 1 then 1 else interval }
    else if ch = 'p' then main_opts rest { v with play_only := true }
    else if ch = 'w' then main_opts rest { v with watch_mode := true }
    else .error (.usage 1)

/-- The function `main` over the results of `getopt` and the answers of the system. -/
def main (c : sys_consts) (env : sndstat_env) (opts : List (Char × CStr)) : main_end :=
  match main_opts opts main_vars_init with
  | .error e => e
  | .ok v =>
    if v.watch_mode then .watch v.target_unit v.play_only v.interval
    else
      let r := read_xruns c env v.target_unit state_zero
      if r.1 < 0 then .ret 1 []
      else .ret 0 (.header r.2.devname :: print_xruns [] r.2 v.play_only false)

/-! ## Vocabulary of the statements -/

/-- The first channel of a snapshot that carries the given name, if any. -/
def first_named (state : xruns_state) (name : CStr) : Option chan_xruns :=
  (channels state).find? (fun p => p.name == name)

/-- The filter of the `-p` flag: with `play_only` a channel passes when its
direction is not 0 (input). -/
def passes (play_only : Bool) (ch : chan_xruns) : Bool :=
  !(play_only && ch.direction == 0)

/-- The emission rule in the words of the specification: the count is positive
and either there is no previous snapshot, or it has no channel of that name, or
the count differs from the count of its first channel of that name. -/
def emit_rule (first_run : Bool) (prev_state : xruns_state) (ch : chan_xruns) : Bool :=
  decide (0 < ch.xruns) &&
    (first_run ||
      match first_named prev_state ch.name with
      | none => true
      | some p => ch.xruns != p.xruns)

/-- A snapshot with the given channels in a zeroed state. -/
def snapshot (chans : List chan_xruns) : xruns_state :=
  { state_zero with
    chans := chans ++ List.replicate (MAX_CHANNELS - chans.length) chan_zero
    nchan := chans.length }

/-- A channel with the given name, direction and count. -/
def chan (name : CStr) (direction : Int) (xruns : Nat) : chan_xruns :=
  { name := name, direction := direction, xruns := xruns, prev_xruns := 0, active := true }

/-- The device entry that `read_xruns` reaches at line 182, if it gets there:
every system call succeeds, the nvlist unpacks and holds `SNDST_DSPS`, and the
device loop finds the unit. -/
def selected (c : sys_consts) (env : sndstat_env) (target_unit : Int) :
    Option (dsp_nv × pinfo_nv) :=
  if env.open_ok && env.refresh_ok && env.get_devs1_ok && env.malloc_ok && env.get_devs2_ok then
    match env.unpack with
    | none => none
    | some nvl =>
      if nvlist_empty nvl || !nvl.dsps.isSome then none
      else find_dev c (if target_unit < 0 then env.dunit else target_unit) (nvl.dsps.getD [])
  else none

/-- The unit that `read_xruns` looks for: the default unit when the argument is
negative. -/
def wanted_unit (env : sndstat_env) (target_unit : Int) : Int :=
  if target_unit < 0 then env.dunit else target_unit

/-- An environment in which every call succeeds and the device list is `di`. -/
def env_of (di : List dsp_nv) (dunit : Int) : sndstat_env :=
  { open_ok := true, refresh_ok := true, get_devs1_ok := true, malloc_ok := true,
    get_devs2_ok := true, unpack := some { dsps := some di, others := 0 }, dunit := dunit }

/-- The header constants of FreeBSD: the provider "sound(4)" and the input
capability bit 0x00010000. -/
def freebsd_consts : sys_consts :=
  { SNDST_DSPS_SOUND4_PROVIDER := [115, 111, 117, 110, 100, 40, 52, 41]
    PCM_CAP_INPUT := 0x00010000 }

/-- A sound(4) device entry with the given unit, name and channel array. -/
def dsp_of (unit : Nat) (nameunit : CStr) (chan_info : Option (List chan_nv)) : dsp_nv :=
  { provider := [115, 111, 117, 110, 100, 40, 52, 41], nameunit := nameunit,
    provider_info := some { unit := unit, chan_info := chan_info } }

/-- Whether the `read_xruns` call of a tick succeeds; the returned value does
not depend on the state passed in. -/
def read_ok (c : sys_consts) (target_unit : Int) (t : tick) : Bool :=
  decide (0 ≤ (read_xruns c t.env target_unit state_zero).1)

/-- Two sets of loop variables that the rest of the loop cannot tell apart: the
same previous snapshot and first-run flag, and the same channel array in `state`. -/
def same_baseline (v w : watch_vars) : Prop :=
  v.state.chans = w.state.chans ∧ v.prev_state = w.prev_state ∧ v.first_run = w.first_run

/-- The number written by a string of decimal digits. -/
def dec_val (ds : List Nat) : Nat := ds.foldl (fun acc b => 10 * acc + (b - 48)) 0

/-- Every byte of the string is a decimal digit. -/
def all_digits (ds : List Nat) : Prop := ∀ b ∈ ds, 48 ≤ b ∧ b ≤ 57

/-! ## Lemmas on the loops -/

theorem find_prev_eq (prev_state : xruns_state) (name : CStr) :
    find_prev prev_state name =
      match first_named prev_state name with
      | some p => p.xruns
      | none => 0 := by
  unfold find_prev first_named channels
  rw [List.find?_map]
  cases h : (List.range prev_state.nchan).find?
      (fun k => strcmp_eq (chan_at prev_state k).name name) with
  | none =>
    have h2 : (List.range prev_state.nchan).find?
        ((fun p : chan_xruns => p.name == name) ∘ chan_at prev_state) = none := h
    rw [h2]; rfl
  | some k =>
    have h2 : (List.range prev_state.nchan).find?
        ((fun p : chan_xruns => p.name == name) ∘ chan_at prev_state) = some k := h
    rw [h2]; rfl

theorem filterMap_range_shown {α β γ : Type} (f : Nat → α → Option β) (g : β → Option γ)
    (h : Nat → α) (p : α → Bool) (k : α → γ)
    (hf : ∀ i a, (f i a).bind g = if p a then some (k a) else none) (l : List Nat) :
    (l.filterMap (fun i => f i (h i))).filterMap g = ((l.map h).filter p).map k := by
  induction l with
  | nil => rfl
  | cons i l ih =>
    rw [List.filterMap_filterMap] at ih ⊢
    rw [List.filterMap_cons, List.map_cons, List.filter_cons]
    have := hf i (h i)
    by_cases hp : p (h i) = true
    · simp only [hp, if_true] at this ⊢
      simp only [this, List.map_cons, ih]
    · simp only [hp] at this ⊢
      simp only [this, ih]
      rfl

theorem emit_rule_eq (first_run : Bool) (prev_state : xruns_state) (ch : chan_xruns) :
    emit_rule first_run prev_state ch =
      (decide (ch.xruns > 0) &&
        (first_run || ch.xruns != (if !first_run then find_prev prev_state ch.name else 0))) := by
  unfold emit_rule
  rw [find_prev_eq]
  cases first_run with
  | true => simp
  | false =>
    cases hf : first_named prev_state ch.name with
    | none =>
      by_cases hx : 0 < ch.xruns
      · have : ch.xruns ≠ 0 := by omega
        simp [hx, this]
      · simp [hx]
    | some q => simp

theorem watch_chan_eq (clock : Nat → CStr) (first_run : Bool) (prev_state : xruns_state)
    (play_only : Bool) (i : Nat) (ch : chan_xruns) :
    watch_chan clock first_run prev_state play_only i ch =
      if (passes play_only ch && emit_rule first_run prev_state ch) = true then
        some (if (first_run || find_prev prev_state ch.name == 0) = true then
          out_line.line (some (clock i)) ch.name ch.xruns
        else
          out_line.line_delta (clock i) ch.name ch.xruns
            (u64_sub ch.xruns (find_prev prev_state ch.name)))
      else none := by
  rw [emit_rule_eq]
  unfold watch_chan passes
  by_cases hp : (play_only && ch.direction == 0) = true
  · simp [hp]
  · simp only [hp]
    cases first_run with
    | true => by_cases hx : 0 < ch.xruns <;> simp [hx]
    | false =>
      have e : (if (!false) = true then find_prev prev_state ch.name else 0) =
          find_prev prev_state ch.name := rfl
      simp only [e, Bool.false_or, Bool.false_eq_true, if_false, Bool.not_false, Bool.true_and,
        if_true]
      generalize find_prev prev_state ch.name = pv
      by_cases hc : (decide (ch.xruns > 0) && ch.xruns != pv) = true
      · rw [if_pos hc, if_pos hc]
        by_cases h0 : (pv == 0) = true
        · rw [if_pos h0, if_pos h0]
        · rw [if_neg h0, if_neg h0]
      · rw [if_neg hc, if_neg hc]

theorem watch_chan_isSome (clock : Nat → CStr) (first_run : Bool) (prev_state : xruns_state)
    (play_only : Bool) (i : Nat) (ch : chan_xruns) :
    (watch_chan clock first_run prev_state play_only i ch).isSome =
      (passes play_only ch && emit_rule first_run prev_state ch) := by
  rw [watch_chan_eq]
  by_cases h : (passes play_only ch && emit_rule first_run prev_state ch) = true
  · rw [if_pos h, h]; rfl
  · rw [if_neg h]
    simp only [Bool.not_eq_true] at h
    rw [h]; rfl

theorem watch_chan_shown (clock : Nat → CStr) (first_run : Bool) (prev_state : xruns_state)
    (play_only : Bool) (i : Nat) (ch : chan_xruns) :
    (watch_chan clock first_run prev_state play_only i ch).bind out_line.shown =
      if (passes play_only ch && emit_rule first_run prev_state ch) = true then
        some (ch.name, ch.xruns)
      else none := by
  rw [watch_chan_eq]
  by_cases h : (passes play_only ch && emit_rule first_run prev_state ch) = true
  · rw [if_pos h, if_pos h]
    by_cases h0 : (first_run || find_prev prev_state ch.name == 0) = true
    · rw [if_pos h0]; rfl
    · rw [if_neg h0]; rfl
  · rw [if_neg h, if_neg h]; rfl

theorem mem_watch_diff (clock : Nat → CStr) (first_run : Bool) (prev_state state : xruns_state)
    (play_only : Bool) (e : out_line) :
    e ∈ watch_diff clock first_run prev_state state play_only ↔
      ∃ i, i < state.nchan ∧
        watch_chan clock first_run prev_state play_only i (chan_at state i) = some e := by
  unfold watch_diff
  rw [List.mem_filterMap]
  constructor
  · rintro ⟨i, hi, h⟩
    exact ⟨i, List.mem_range.mp hi, h⟩
  · rintro ⟨i, hi, h⟩
    exact ⟨i, List.mem_range.mpr hi, h⟩

theorem mem_channels (state : xruns_state) (ch : chan_xruns) :
    ch ∈ channels state ↔ ∃ i, i < state.nchan ∧ chan_at state i = ch := by
  unfold channels
  rw [List.mem_map]
  constructor
  · rintro ⟨i, hi, h⟩
    exact ⟨i, List.mem_range.mp hi, h⟩
  · rintro ⟨i, hi, h⟩
    exact ⟨i, List.mem_range.mpr hi, h⟩

theorem emit_rule_iff (first_run : Bool) (prev_state : xruns_state) (ch : chan_xruns) :
    emit_rule first_run prev_state ch = true ↔
      0 < ch.xruns ∧
        (first_run = true ∨ first_named prev_state ch.name = none ∨
          ∃ p, first_named prev_state ch.name = some p ∧ ch.xruns ≠ p.xruns) := by
  unfold emit_rule
  cases hf : first_named prev_state ch.name with
  | none => simp
  | some q => simp

theorem passes_iff (play_only : Bool) (ch : chan_xruns) :
    passes play_only ch = true ↔ ¬ (play_only = true ∧ ch.direction = 0) := by
  unfold passes
  cases play_only <;> simp

/-! ## The emission rule of the watch mode -/

/-- C1: the channel loop of `watch_xruns` prints a line for a channel exactly
when the channel passes the `-p` filter, its count is positive, and either it is
the first run, or the previous snapshot has no channel of that name, or the count
differs from the count of the first channel of that name in the previous
snapshot. The lines of one tick are, in order, those of the channels of the
current snapshot that satisfy this rule, and a channel with count 0 never gets a
line. -/
theorem C1_watch_emission_rule (clock : Nat → CStr) (first_run : Bool)
    (prev_state state : xruns_state) (play_only : Bool) :
    (∀ (i : Nat) (ch : chan_xruns),
      (watch_chan clock first_run prev_state play_only i ch).isSome = true ↔
        ¬ (play_only = true ∧ ch.direction = 0) ∧ 0 < ch.xruns ∧
          (first_run = true ∨ first_named prev_state ch.name = none ∨
            ∃ p, first_named prev_state ch.name = some p ∧ ch.xruns ≠ p.xruns)) ∧
    (watch_diff clock first_run prev_state state play_only).filterMap out_line.shown =
      ((channels state).filter
        (fun ch => passes play_only ch && emit_rule first_run prev_state ch)).map
          (fun ch => (ch.name, ch.xruns)) ∧
    (∀ (i : Nat) (ch : chan_xruns), ch.xruns = 0 →
      watch_chan clock first_run prev_state play_only i ch = none) ∧
    (∀ e ∈ watch_diff clock first_run prev_state state play_only,
      ∃ n x, e.shown = some (n, x) ∧ 0 < x) := by
  have key : ∀ (i : Nat) (ch : chan_xruns),
      (watch_chan clock first_run prev_state play_only i ch).isSome = true ↔
        ¬ (play_only = true ∧ ch.direction = 0) ∧ 0 < ch.xruns ∧
          (first_run = true ∨ first_named prev_state ch.name = none ∨
            ∃ p, first_named prev_state ch.name = some p ∧ ch.xruns ≠ p.xruns) := by
    intro i ch
    rw [watch_chan_isSome, Bool.and_eq_true, passes_iff, emit_rule_iff]
  have zero : ∀ (i : Nat) (ch : chan_xruns), ch.xruns = 0 →
      watch_chan clock first_run prev_state play_only i ch = none := by
    intro i ch h0
    cases h : watch_chan clock first_run prev_state play_only i ch with
    | none => rfl
    | some e =>
      have h1 := (key i ch).mp (by rw [h]; rfl)
      omega
  refine ⟨key, ?_, zero, ?_⟩
  · exact filterMap_range_shown
      (fun i ch => watch_chan clock first_run prev_state play_only i ch) out_line.shown
      (chan_at state) _ _
      (fun i ch => watch_chan_shown clock first_run prev_state play_only i ch) _
  · intro e he
    obtain ⟨i, _, h⟩ := (mem_watch_diff _ _ _ _ _ _).mp he
    have h1 := (key i (chan_at state i)).mp (by rw [h]; rfl)
    have h2 := watch_chan_shown clock first_run prev_state play_only i (chan_at state i)
    rw [h] at h2
    have h3 : (passes play_only (chan_at state i) &&
        emit_rule first_run prev_state (chan_at state i)) = true := by
      rw [← watch_chan_isSome clock first_run prev_state play_only i, h]; rfl
    rw [if_pos h3] at h2
    exact ⟨_, _, h2, h1.2.1⟩

/-- C1, at a snapshot with a changed, an unchanged and a zero channel: only the
changed one gets a line. -/
theorem C1_watch_emission_rule_witness :
    (watch_diff (fun _ => []) false
        (snapshot [chan [97] 1 2, chan [98] 1 4, chan [99] 0 0])
        (snapshot [chan [97] 1 3, chan [98] 1 4, chan [99] 0 0]) false).filterMap
        out_line.shown = [([97], 3)] := by
  rw [(C1_watch_emission_rule (fun _ => []) false
    (snapshot [chan [97] 1 2, chan [98] 1 4, chan [99] 0 0])
    (snapshot [chan [97] 1 3, chan [98] 1 4, chan [99] 0 0]) false).2.1]
  decide

/-! ## The delta shown on a line -/

theorem u64_sub_of_le (a b : Nat) (hba : b ≤ a) (ha : a < 2 ^ 64) : u64_sub a b = a - b := by
  unfold u64_sub
  have hb : b < 2 ^ 64 := by omega
  rw [Nat.mod_eq_of_lt ha, Nat.mod_eq_of_lt hb]
  have : a + 2 ^ 64 - b = (a - b) + 2 ^ 64 := by omega
  rw [this, Nat.add_mod_right, Nat.mod_eq_of_lt (by omega)]

theorem u64_sub_of_lt (a b : Nat) (hab : a < b) (hb : b < 2 ^ 64) :
    u64_sub a b = 2 ^ 64 - (b - a) := by
  unfold u64_sub
  have ha : a < 2 ^ 64 := by omega
  rw [Nat.mod_eq_of_lt ha, Nat.mod_eq_of_lt hb]
  have : a + 2 ^ 64 - b = 2 ^ 64 - (b - a) := by omega
  rw [this, Nat.mod_eq_of_lt (by omega)]

theorem watch_chan_delta (clock : Nat → CStr) (first_run : Bool) (prev_state : xruns_state)
    (play_only : Bool) (i : Nat) (ch : chan_xruns) (e : out_line)
    (h : watch_chan clock first_run prev_state play_only i ch = some e) :
    e = (if (first_run || find_prev prev_state ch.name == 0) = true then
          out_line.line (some (clock i)) ch.name ch.xruns
        else
          out_line.line_delta (clock i) ch.name ch.xruns
            (u64_sub ch.xruns (find_prev prev_state ch.name))) := by
  rw [watch_chan_eq] at h
  split at h
  · exact (Option.some.inj h).symm
  · exact absurd h (by simp)

theorem u64_sub_int (a b : Nat) : (u64_sub a b : Int) = ((a : Int) - (b : Int)) % 2 ^ 64 := by
  unfold u64_sub
  omega

/-- C2: the claim fails when the matched previous count is larger than the
current one: with "dsp0.p0" at 7 before and at 2 now the one line shows the
delta 2^64 - 5, which is not 2 - 7. -/
theorem C2_delta_presentation_counterexample :
    watch_diff (fun _ => []) false (snapshot [chan (cstr "dsp0.p0") 1 7])
        (snapshot [chan (cstr "dsp0.p0") 1 2]) false =
      [.line_delta [] (cstr "dsp0.p0") 2 18446744073709551611] ∧
    first_named (snapshot [chan (cstr "dsp0.p0") 1 7]) (cstr "dsp0.p0") =
      some (chan (cstr "dsp0.p0") 1 7) ∧
    (18446744073709551611 : Int) ≠ 2 - 7 := by
  decide

/-- C2 (amended): a line printed by the channel loop of `watch_xruns` has no
delta exactly when it is the first run, or the previous snapshot has no channel
of that name, or the first channel of that name in the previous snapshot has
count 0; in every other case it shows the delta (current - previous) mod 2^64,
previous being the count of that first channel: this is current - previous when
previous is not larger than current, and 2^64 - (previous - current) when it is
larger. With no previous snapshot a channel with count 5 gives one line without
delta; with "dsp0.p0" at 3 before and at 10 now the one line shows 7. -/
theorem C2_delta_presentation_amended :
    (∀ (clock : Nat → CStr) (first_run : Bool) (prev_state state : xruns_state)
      (play_only : Bool) (e : out_line),
      e ∈ watch_diff clock first_run prev_state state play_only →
      ∃ i, i < state.nchan ∧
        watch_chan clock first_run prev_state play_only i (chan_at state i) = some e ∧
        (e.delta? = none ↔
          (first_run = true ∨ first_named prev_state (chan_at state i).name = none ∨
            ∃ p, first_named prev_state (chan_at state i).name = some p ∧ p.xruns = 0)) ∧
        (∀ p, first_run = false → first_named prev_state (chan_at state i).name = some p →
          p.xruns ≠ 0 →
            ∃ d : Nat,
              e = .line_delta (clock i) (chan_at state i).name (chan_at state i).xruns d ∧
              (d : Int) = (((chan_at state i).xruns : Int) - (p.xruns : Int)) % 2 ^ 64 ∧
              (p.xruns ≤ (chan_at state i).xruns → (chan_at state i).xruns < 2 ^ 64 →
                d = (chan_at state i).xruns - p.xruns) ∧
              ((chan_at state i).xruns < p.xruns → p.xruns < 2 ^ 64 →
                d = 2 ^ 64 - (p.xruns - (chan_at state i).xruns)))) ∧
    (∀ (clock : Nat → CStr) (prev_state : xruns_state) (name : CStr) (direction : Int),
      watch_diff clock true prev_state (snapshot [chan name direction 5]) false =
        [.line (some (clock 0)) name 5]) ∧
    watch_diff (fun _ => []) false (snapshot [chan (cstr "dsp0.p0") 1 3])
        (snapshot [chan (cstr "dsp0.p0") 1 10]) false =
      [.line_delta [] (cstr "dsp0.p0") 10 7] := by
  refine ⟨?_, ?_, by decide⟩
  · intro clock first_run prev_state state play_only e he
    obtain ⟨i, hi, h⟩ := (mem_watch_diff _ _ _ _ _ _).mp he
    refine ⟨i, hi, h, ?_, ?_⟩
    · have hd := watch_chan_delta _ _ _ _ _ _ _ h
      rw [find_prev_eq] at hd
      cases first_run with
      | true =>
        rw [hd]
        simp [out_line.delta?]
      | false =>
        cases hf : first_named prev_state (chan_at state i).name with
        | none =>
          rw [hd, hf]
          simp [out_line.delta?]
        | some q =>
          rw [hd, hf]
          by_cases h0 : q.xruns = 0
          · simp [out_line.delta?, h0]
          · simp [out_line.delta?, h0]
    · intro p hfr hf hp
      have hd := watch_chan_delta _ _ _ _ _ _ _ h
      rw [find_prev_eq, hf, hfr] at hd
      have hc : ¬ ((false || p.xruns == 0) = true) := by simp [hp]
      rw [if_neg hc] at hd
      exact ⟨u64_sub (chan_at state i).xruns p.xruns, hd, u64_sub_int _ _,
        fun hle hlt => u64_sub_of_le _ _ hle hlt, fun hlt hp64 => u64_sub_of_lt _ _ hlt hp64⟩
  · intro clock prev_state name direction
    rfl

/-- C2 (amended), at the tick where "dsp0.p0" goes from 2 to 5: the line shows
the delta 3. -/
theorem C2_delta_presentation_amended_witness :
    ∃ i, i < 1 ∧
      watch_chan (fun _ => []) false (snapshot [chan (cstr "dsp0.p0") 1 2]) false i
        (chan_at (snapshot [chan (cstr "dsp0.p0") 1 5]) i) =
          some (.line_delta [] (cstr "dsp0.p0") 5 3) :=
  let ⟨i, hi, h, _⟩ := C2_delta_presentation_amended.1 (fun _ => []) false
    (snapshot [chan (cstr "dsp0.p0") 1 2]) (snapshot [chan (cstr "dsp0.p0") 1 5]) false
    (.line_delta [] (cstr "dsp0.p0") 5 3) (by decide)
  ⟨i, hi, h⟩

/-- C10: the claim fails when a counter went down: with "a" at 10 before and at
3 now the line shows the delta 2^64 - 7, and 3 is not greater than 10. -/
theorem C10_delta_positivity_counterexample :
    watch_diff (fun _ => []) false (snapshot [chan [97] 1 10]) (snapshot [chan [97] 1 3]) false =
        [.line_delta [] [97] 3 18446744073709551609] ∧
      first_named (snapshot [chan [97] 1 10]) [97] = some (chan [97] 1 10) ∧
      ¬ ((chan [97] 1 10).xruns < (chan [97] 1 3).xruns) ∧
      (18446744073709551609 : Int) ≠ 3 - 10 := by
  decide

/-- C10 (amended): for every line with a delta that the channel loop of
`watch_xruns` prints, the current count and the count of the first channel of
that name in the previous snapshot are both non-zero and different, and the
delta is their `uint64_t` difference: for 64-bit counts it is positive, it is
the exact difference when the count went up, and it is 2^64 minus the decrease
when the count went down. -/
theorem C10_delta_positivity_amended (clock : Nat → CStr) (first_run : Bool)
    (prev_state state : xruns_state) (play_only : Bool) (e : out_line) (d : Nat)
    (he : e ∈ watch_diff clock first_run prev_state state play_only)
    (hd : e.delta? = some d) :
    ∃ i p, i < state.nchan ∧ first_run = false ∧
      first_named prev_state (chan_at state i).name = some p ∧
      e = .line_delta (clock i) (chan_at state i).name (chan_at state i).xruns d ∧
      0 < (chan_at state i).xruns ∧ p.xruns ≠ 0 ∧ (chan_at state i).xruns ≠ p.xruns ∧
      d = u64_sub (chan_at state i).xruns p.xruns ∧
      ((chan_at state i).xruns < 2 ^ 64 → p.xruns < 2 ^ 64 →
        0 < d ∧
        (p.xruns < (chan_at state i).xruns → (d : Int) = (chan_at state i).xruns - p.xruns) ∧
        ((chan_at state i).xruns < p.xruns →
          (d : Int) = 2 ^ 64 - (p.xruns - (chan_at state i).xruns))) := by
  obtain ⟨i, hi, h⟩ := (mem_watch_diff _ _ _ _ _ _).mp he
  have hs : (watch_chan clock first_run prev_state play_only i (chan_at state i)).isSome = true := by
    rw [h]; rfl
  rw [watch_chan_isSome, Bool.and_eq_true, emit_rule_iff] at hs
  obtain ⟨_, hpos, hrule⟩ := hs
  have hl := watch_chan_delta _ _ _ _ _ _ _ h
  rw [find_prev_eq] at hl
  cases first_run with
  | true =>
    rw [hl] at hd
    simp [out_line.delta?] at hd
  | false =>
    cases hf : first_named prev_state (chan_at state i).name with
    | none =>
      rw [hl, hf] at hd
      simp [out_line.delta?] at hd
    | some q =>
      rw [hf] at hl hrule
      by_cases h0 : q.xruns = 0
      · rw [hl] at hd
        simp [out_line.delta?, h0] at hd
      · have hc : ¬ ((false || q.xruns == 0) = true) := by simp [h0]
        rw [if_neg hc] at hl
        have hdd : d = u64_sub (chan_at state i).xruns q.xruns := by
          rw [hl] at hd
          exact (Option.some.inj hd).symm
        have hne : (chan_at state i).xruns ≠ q.xruns := by
          rcases hrule with h1 | h1 | ⟨p, h1, h2⟩
          · exact absurd h1 (by simp)
          · exact absurd h1 (by simp)
          · cases h1; exact h2
        refine ⟨i, q, hi, rfl, hf, by rw [hdd]; exact hl, hpos, h0, hne, hdd, ?_⟩
        intro hx hq
        rcases Nat.lt_or_gt_of_ne hne with hlt | hgt
        · have := u64_sub_of_lt _ _ hlt hq
          refine ⟨by omega, fun h => by omega, fun _ => ?_⟩
          rw [hdd, this]
          omega
        · have := u64_sub_of_le _ _ (Nat.le_of_lt hgt) hx
          refine ⟨by omega, fun _ => ?_, fun h => by omega⟩
          rw [hdd, this]
          omega

/-- C10 (amended), at the tick where "a" goes from 10 down to 3. -/
theorem C10_delta_positivity_amended_witness :
    ∃ i p, i < 1 ∧ false = false ∧
      first_named (snapshot [chan [97] 1 10]) (chan_at (snapshot [chan [97] 1 3]) i).name = some p ∧
      out_line.line_delta [] [97] 3 18446744073709551609 =
        .line_delta [] (chan_at (snapshot [chan [97] 1 3]) i).name
          (chan_at (snapshot [chan [97] 1 3]) i).xruns 18446744073709551609 ∧
      0 < (chan_at (snapshot [chan [97] 1 3]) i).xruns ∧ p.xruns ≠ 0 ∧
      (chan_at (snapshot [chan [97] 1 3]) i).xruns ≠ p.xruns ∧
      18446744073709551609 = u64_sub (chan_at (snapshot [chan [97] 1 3]) i).xruns p.xruns ∧
      ((chan_at (snapshot [chan [97] 1 3]) i).xruns < 2 ^ 64 → p.xruns < 2 ^ 64 →
        0 < 18446744073709551609 ∧
        (p.xruns < (chan_at (snapshot [chan [97] 1 3]) i).xruns →
          ((18446744073709551609 : Nat) : Int) =
            (chan_at (snapshot [chan [97] 1 3]) i).xruns - p.xruns) ∧
        ((chan_at (snapshot [chan [97] 1 3]) i).xruns < p.xruns →
          ((18446744073709551609 : Nat) : Int) =
            2 ^ 64 - (p.xruns - (chan_at (snapshot [chan [97] 1 3]) i).xruns))) :=
  C10_delta_positivity_amended (fun _ => []) false (snapshot [chan [97] 1 10])
    (snapshot [chan [97] 1 3]) false (.line_delta [] [97] 3 18446744073709551609)
    18446744073709551609 (by decide) (by decide)

/-! ## A snapshot against itself -/

theorem find_name_of_nodup (l : List chan_xruns) (hn : (l.map (fun p => p.name)).Nodup)
    (ch : chan_xruns) (hm : ch ∈ l) :
    l.find? (fun p => p.name == ch.name) = some ch := by
  induction l with
  | nil => exact absurd hm (by simp)
  | cons a l ih =>
    rw [List.map_cons, List.nodup_cons] at hn
    rcases List.mem_cons.mp hm with h | h
    · subst h
      simp
    · have hne : a.name ≠ ch.name := by
        intro heq
        apply hn.1
        rw [heq]
        exact List.mem_map_of_mem (fun p => p.name) h
      rw [List.find?_cons]
      have : (a.name == ch.name) = false := by simpa using hne
      rw [this]
      exact ih hn.2 h

theorem first_named_self_ne_none (s : xruns_state) (ch : chan_xruns) (hm : ch ∈ channels s) :
    first_named s ch.name ≠ none := by
  unfold first_named
  intro h
  rw [List.find?_eq_none] at h
  exact h ch hm (by simp)

/-- C3: the claim fails for a snapshot in which two channels share a name: with
"a" at 5 and a second "a" at 7, the diff of the snapshot against itself prints a
line for the second one. -/
theorem C3_diff_idempotence_counterexample :
    (snapshot [chan [97] 1 5, chan [97] 1 7]).nchan ≤ 64 ∧
      watch_diff (fun _ => []) false (snapshot [chan [97] 1 5, chan [97] 1 7])
        (snapshot [chan [97] 1 5, chan [97] 1 7]) false = [.line_delta [] [97] 7 2] := by
  decide

/-- C3 (amended): the diff of a snapshot against itself as previous snapshot
(not the first run) prints nothing exactly when every channel that passes the
filter and has a positive count has the count of the first channel of its name;
in particular it prints nothing when the channel names of the snapshot are
pairwise different. -/
theorem C3_diff_idempotence_amended (clock : Nat → CStr) (s : xruns_state) (play_only : Bool) :
    (watch_diff clock false s s play_only = [] ↔
      ∀ ch ∈ channels s, ¬ (play_only = true ∧ ch.direction = 0) → 0 < ch.xruns →
        ∃ p, first_named s ch.name = some p ∧ p.xruns = ch.xruns) ∧
    (((channels s).map (fun p => p.name)).Nodup → watch_diff clock false s s play_only = []) := by
  have main : watch_diff clock false s s play_only = [] ↔
      ∀ ch ∈ channels s, ¬ (play_only = true ∧ ch.direction = 0) → 0 < ch.xruns →
        ∃ p, first_named s ch.name = some p ∧ p.xruns = ch.xruns := by
    unfold watch_diff
    rw [List.filterMap_eq_nil_iff]
    constructor
    · intro h ch hm hp hx
      obtain ⟨i, hi, hc⟩ := (mem_channels s ch).mp hm
      have h1 := h i (List.mem_range.mpr hi)
      rw [hc] at h1
      have h2 := watch_chan_isSome clock false s play_only i ch
      rw [h1] at h2
      have h3 : emit_rule false s ch = false := by
        have hp2 := (passes_iff play_only ch).mpr hp
        rw [hp2] at h2
        simpa using h2.symm
      cases hf : first_named s ch.name with
      | none => exact absurd hf (first_named_self_ne_none s ch hm)
      | some q =>
        refine ⟨q, rfl, ?_⟩
        by_contra hne
        have : emit_rule false s ch = true :=
          (emit_rule_iff false s ch).mpr ⟨hx, Or.inr (Or.inr ⟨q, hf, fun h => hne h.symm⟩)⟩
        rw [h3] at this
        exact absurd this (by simp)
    · intro h i hi
      have hm : chan_at s i ∈ channels s :=
        (mem_channels s _).mpr ⟨i, List.mem_range.mp hi, rfl⟩
      cases hw : watch_chan clock false s play_only i (chan_at s i) with
      | none => rfl
      | some e =>
        have h2 := watch_chan_isSome clock false s play_only i (chan_at s i)
        rw [hw] at h2
        have h3 := Bool.and_eq_true _ _ ▸ h2.symm
        obtain ⟨hp, he⟩ := h3
        obtain ⟨hx, hr⟩ := (emit_rule_iff false s _).mp he
        obtain ⟨p, hp1, hp2⟩ := h _ hm ((passes_iff _ _).mp hp) hx
        rcases hr with hr | hr | ⟨q, hq1, hq2⟩
        · exact absurd hr (by simp)
        · rw [hp1] at hr
          exact absurd hr (by simp)
        · rw [hp1] at hq1
          cases hq1
          exact absurd hp2.symm hq2
  refine ⟨main, fun hn => main.mpr ?_⟩
  intro ch hm _ _
  exact ⟨ch, find_name_of_nodup _ hn ch hm, rfl⟩

/-- C3 (amended), at a snapshot with two channels of different names. -/
theorem C3_diff_idempotence_amended_witness :
    watch_diff (fun _ => []) false (snapshot [chan [97] 1 5, chan [98] 0 7])
      (snapshot [chan [97] 1 5, chan [98] 0 7]) true = [] :=
  (C3_diff_idempotence_amended (fun _ => []) (snapshot [chan [97] 1 5, chan [98] 0 7]) true).2
    (by decide)

/-! ## print_xruns -/

theorem filterMap_range_filter {α β : Type} (h : Nat → α) (p : α → Bool) (k : α → β)
    (f : α → Option β) (hf : ∀ a, f a = if p a then some (k a) else none) (l : List Nat) :
    l.filterMap (fun i => f (h i)) = ((l.map h).filter p).map k := by
  induction l with
  | nil => rfl
  | cons i l ih =>
    rw [List.filterMap_cons, List.map_cons, List.filter_cons, hf (h i)]
    by_cases hp : p (h i) = true
    · simp only [hp, if_true, List.map_cons, ih]
    · simp only [hp, ih]
      rfl

/-- C4: `print_xruns` with `play_only` prints one line for each channel of the
snapshot whose direction is not 0 (an output channel), in snapshot order, and
without `play_only` one line for each channel, in snapshot order. -/
theorem C4_print_filter (ts : CStr) (state : xruns_state) (show_timestamp : Bool) :
    print_xruns ts state true show_timestamp =
      ((channels state).filter (fun ch => decide (ch.direction ≠ 0))).map
        (fun ch => .line (if show_timestamp then some ts else none) ch.name ch.xruns) ∧
    print_xruns ts state false show_timestamp =
      (channels state).map
        (fun ch => .line (if show_timestamp then some ts else none) ch.name ch.xruns) := by
  constructor
  · unfold print_xruns channels
    apply filterMap_range_filter
    intro ch
    unfold print_chan
    by_cases hd : ch.direction = 0 <;> cases show_timestamp <;> simp [hd]
  · unfold print_xruns channels
    have := filterMap_range_filter (chan_at state) (fun _ => true)
      (fun ch => out_line.line (if show_timestamp then some ts else none) ch.name ch.xruns)
      (print_chan ts false show_timestamp)
      (by intro ch; unfold print_chan; cases show_timestamp <;> simp)
      (List.range state.nchan)
    rw [this, List.filter_true]

/-! ## read_xruns -/

theorem read_xruns_eq (c : sys_consts) (env : sndstat_env) (target_unit : Int)
    (state : xruns_state) :
    read_xruns c env target_unit state =
      match selected c env target_unit with
      | none => (-1, state)
      | some (d, pi) =>
        match pi.chan_info with
        | none =>
          (-1, { state with unit := wanted_unit env target_unit,
                            devname := strlcpy d.nameunit 64 })
        | some cdi =>
          (0, read_chans c cdi 0
            { state with unit := wanted_unit env target_unit,
                         devname := strlcpy d.nameunit 64, nchan := 0 }) := by
  unfold read_xruns selected wanted_unit
  cases env.open_ok <;> cases env.refresh_ok <;> cases env.get_devs1_ok <;>
    cases env.malloc_ok <;> cases env.get_devs2_ok <;> try rfl
  cases env.unpack with
  | none => rfl
  | some nvl =>
    simp only [Bool.not_true, Bool.false_eq_true, if_false, Bool.and_self, if_true]
    by_cases hg : (nvlist_empty nvl || !nvl.dsps.isSome) = true
    · simp only [hg, if_true]
    · simp only [hg, if_false]
      cases find_dev c (if target_unit < 0 then env.dunit else target_unit) (nvl.dsps.getD []) with
      | none => rfl
      | some r =>
        obtain ⟨d, pi⟩ := r
        cases hci : pi.chan_info <;> simp only [hci, Bool.false_eq_true, if_false]

theorem find_dev_sound (c : sys_consts) (target_unit : Int) (di : List dsp_nv)
    (d : dsp_nv) (pi : pinfo_nv) (h : find_dev c target_unit di = some (d, pi)) :
    d ∈ di ∧ d.provider = c.SNDST_DSPS_SOUND4_PROVIDER ∧ d.provider_info = some pi ∧
      to_int (pi.unit % 2 ^ 64) = target_unit := by
  induction di with
  | nil => exact absurd h (by simp [find_dev])
  | cons a rest ih =>
    unfold find_dev at h
    by_cases hp : strcmp_eq a.provider c.SNDST_DSPS_SOUND4_PROVIDER = true
    · simp only [hp, Bool.not_true, Bool.false_eq_true, if_false] at h
      cases hpi : a.provider_info with
      | none =>
        simp only [hpi] at h
        obtain ⟨h1, h2⟩ := ih h
        exact ⟨List.mem_cons_of_mem _ h1, h2⟩
      | some q =>
        simp only [hpi] at h
        by_cases hu : to_int (q.unit % 2 ^ 64) = target_unit
        · rw [if_pos hu] at h
          cases h
          refine ⟨List.mem_cons_self _ _, ?_, hpi, hu⟩
          unfold strcmp_eq at hp
          simpa using hp
        · rw [if_neg hu] at h
          obtain ⟨h1, h2⟩ := ih h
          exact ⟨List.mem_cons_of_mem _ h1, h2⟩
    · simp only [hp, Bool.not_false, if_true] at h
      obtain ⟨h1, h2⟩ := ih h
      exact ⟨List.mem_cons_of_mem _ h1, h2⟩

theorem channels_length (state : xruns_state) : (channels state).length = state.nchan := by
  unfold channels
  simp

theorem channels_read_chan (c : sys_consts) (e : chan_nv) (state : xruns_state)
    (hlen : state.nchan < state.chans.length) :
    channels (read_chan c e state) =
      channels state ++
        [{ name := strlcpy e.name 256, direction := chan_direction c e.caps,
           prev_xruns := (chan_at state state.nchan).xruns, xruns := e.xruns % 2 ^ 64,
           active := true }] := by
  unfold channels read_chan
  simp only [List.range_succ, List.map_append, List.map_cons, List.map_nil]
  congr 1
  · apply List.map_congr_left
    intro i hi
    have hi2 : i < state.nchan := List.mem_range.mp hi
    unfold chan_at
    simp only [List.getD_eq_getElem?_getD, List.getElem?_set]
    rw [if_neg (by omega)]
  · unfold chan_at
    simp only [List.getD_eq_getElem?_getD, List.getElem?_set, if_true, hlen]
    rfl

theorem read_chans_channels (c : sys_consts) (cdi : List chan_nv) :
    ∀ (j : Nat) (state : xruns_state), state.nchan = j → j ≤ MAX_CHANNELS →
      state.chans.length = MAX_CHANNELS →
      (channels (read_chans c cdi j state)).map (fun ch => (ch.name, ch.direction, ch.xruns)) =
        (channels state).map (fun ch => (ch.name, ch.direction, ch.xruns)) ++
          (cdi.take (MAX_CHANNELS - j)).map
            (fun e => (strlcpy e.name 256, chan_direction c e.caps, e.xruns % 2 ^ 64)) ∧
      (read_chans c cdi j state).unit = state.unit ∧
      (read_chans c cdi j state).devname = state.devname := by
  induction cdi with
  | nil =>
    intro j state _ _ _
    simp [read_chans]
  | cons e rest ih =>
    intro j state hj hle hlen
    unfold read_chans
    by_cases hlt : j < MAX_CHANNELS
    · rw [if_pos hlt]
      have h1 : (read_chan c e state).nchan = j + 1 := by simp [read_chan, hj]
      have h2 : (read_chan c e state).chans.length = MAX_CHANNELS := by simp [read_chan, hlen]
      obtain ⟨ih1, ih2, ih3⟩ := ih (j + 1) (read_chan c e state) h1 hlt h2
      refine ⟨?_, ?_, ?_⟩
      · rw [ih1, channels_read_chan c e state (by omega)]
        have : MAX_CHANNELS - j = (MAX_CHANNELS - (j + 1)) + 1 := by omega
        rw [this, List.take_succ_cons]
        simp
      · rw [ih2]; rfl
      · rw [ih3]; rfl
    · rw [if_neg hlt]
      have : MAX_CHANNELS - j = 0 := by omega
      rw [this]
      simp

theorem read_chans_nchan (c : sys_consts) (cdi : List chan_nv) (state : xruns_state)
    (h0 : state.nchan = 0) (hlen : state.chans.length = MAX_CHANNELS) :
    (read_chans c cdi 0 state).nchan = min cdi.length MAX_CHANNELS := by
  have h := congrArg List.length (read_chans_channels c cdi 0 state h0 (Nat.zero_le _) hlen).1
  simp only [List.length_map, List.length_append, channels_length, h0, List.length_take,
    Nat.sub_zero, Nat.zero_add] at h
  rw [h, Nat.min_comm]

theorem and_mod_two_pow_32 (caps m : Nat) (hm : m < 2 ^ 32) :
    (caps % 2 ^ 32) &&& m = caps &&& m := by
  apply Nat.eq_of_testBit_eq
  intro i
  rw [Nat.testBit_and, Nat.testBit_and, Nat.testBit_mod_two_pow]
  by_cases hi : i < 32
  · simp [hi]
  · have hle : 2 ^ 32 ≤ 2 ^ i := Nat.pow_le_pow_right (by decide) (by omega)
    have : m.testBit i = false := Nat.testBit_lt_two_pow (by omega)
    simp [this]

theorem selected_of_success (c : sys_consts) (env : sndstat_env) (target_unit : Int)
    (state : xruns_state) (h : (read_xruns c env target_unit state).1 = 0) :
    ∃ d pi cdi, selected c env target_unit = some (d, pi) ∧ pi.chan_info = some cdi := by
  rw [read_xruns_eq] at h
  cases hs : selected c env target_unit with
  | none =>
    rw [hs] at h
    change (-1 : Int) = 0 at h
    omega
  | some r =>
    obtain ⟨d, pi⟩ := r
    rw [hs] at h
    cases hci : pi.chan_info with
    | none =>
      simp only [hci] at h
      omega
    | some cdi => exact ⟨d, pi, cdi, rfl, hci⟩

theorem read_xruns_success (c : sys_consts) (env : sndstat_env) (target_unit : Int)
    (state : xruns_state) (d : dsp_nv) (pi : pinfo_nv) (cdi : List chan_nv)
    (hsel : selected c env target_unit = some (d, pi)) (hci : pi.chan_info = some cdi) :
    read_xruns c env target_unit state =
      (0, read_chans c cdi 0
        { state with unit := wanted_unit env target_unit,
                     devname := strlcpy d.nameunit 64, nchan := 0 }) := by
  rw [read_xruns_eq, hsel]
  simp only [hci]

theorem read_xruns_channels (c : sys_consts) (env : sndstat_env) (target_unit : Int)
    (state : xruns_state) (hlen : state.chans.length = MAX_CHANNELS) :
    ∀ d pi cdi, selected c env target_unit = some (d, pi) → pi.chan_info = some cdi →
      (read_xruns c env target_unit state).1 = 0 ∧
      (read_xruns c env target_unit state).2.nchan = min cdi.length 64 ∧
      (channels (read_xruns c env target_unit state).2).map
          (fun ch => (ch.name, ch.direction, ch.xruns)) =
        (cdi.take 64).map
          (fun e => (strlcpy e.name 256, chan_direction c e.caps, e.xruns % 2 ^ 64)) ∧
      (64 < cdi.length → (read_xruns c env target_unit state).2.nchan = 64) := by
  intro d pi cdi hsel hci
  rw [read_xruns_success c env target_unit state d pi cdi hsel hci]
  have hn := read_chans_nchan c cdi
    { state with unit := wanted_unit env target_unit,
                 devname := strlcpy d.nameunit 64, nchan := 0 } rfl hlen
  have hc := (read_chans_channels c cdi 0
    { state with unit := wanted_unit env target_unit,
                 devname := strlcpy d.nameunit 64, nchan := 0 } rfl (Nat.zero_le _) hlen).1
  refine ⟨rfl, hn, ?_, ?_⟩
  · rw [hc]
    simp [channels, MAX_CHANNELS]
  · intro h
    show (read_chans c cdi 0 _).nchan = 64
    rw [hn]
    unfold MAX_CHANNELS
    omega

/-- C5: when `read_xruns` reaches a device whose channel array has n entries, it
returns 0 and leaves min(n, 64) channels in the state, which are the first
min(n, 64) entries converted in their order; with more than 64 entries the
state has exactly 64 channels and the call still returns 0. A call that returns
0 has reached such a device. -/
theorem C5_cap_enforcement (c : sys_consts) (env : sndstat_env) (target_unit : Int)
    (state : xruns_state) (hlen : state.chans.length = MAX_CHANNELS) :
    (∀ d pi cdi, selected c env target_unit = some (d, pi) → pi.chan_info = some cdi →
      (read_xruns c env target_unit state).1 = 0 ∧
      (read_xruns c env target_unit state).2.nchan = min cdi.length 64 ∧
      (channels (read_xruns c env target_unit state).2).map
          (fun ch => (ch.name, ch.direction, ch.xruns)) =
        (cdi.take 64).map
          (fun e => (strlcpy e.name 256, chan_direction c e.caps, e.xruns % 2 ^ 64)) ∧
      (64 < cdi.length → (read_xruns c env target_unit state).2.nchan = 64)) ∧
    ((read_xruns c env target_unit state).1 = 0 →
      ∃ d pi cdi, selected c env target_unit = some (d, pi) ∧ pi.chan_info = some cdi) := by
  exact ⟨read_xruns_channels c env target_unit state hlen,
    selected_of_success c env target_unit state⟩

/-- C5, at a device with 65 channel entries. -/
theorem C5_cap_enforcement_witness :
    (read_xruns freebsd_consts
      (env_of [dsp_of 0 [112] (some (List.replicate 65 { name := [97], caps := 0, xruns := 1 }))] 0)
      0 state_zero).1 = 0 ∧
    (read_xruns freebsd_consts
      (env_of [dsp_of 0 [112] (some (List.replicate 65 { name := [97], caps := 0, xruns := 1 }))] 0)
      0 state_zero).2.nchan = 64 :=
  let h := (C5_cap_enforcement freebsd_consts
    (env_of [dsp_of 0 [112] (some (List.replicate 65 { name := [97], caps := 0, xruns := 1 }))] 0)
    0 state_zero (by decide)).1
    (dsp_of 0 [112] (some (List.replicate 65 { name := [97], caps := 0, xruns := 1 })))
    { unit := 0, chan_info := some (List.replicate 65 { name := [97], caps := 0, xruns := 1 }) }
    (List.replicate 65 { name := [97], caps := 0, xruns := 1 }) (by decide) rfl
  ⟨h.1, h.2.2.2 (by decide)⟩

theorem channels_getElem? (state : xruns_state) (i : Nat) (hi : i < state.nchan) :
    (channels state)[i]? = some (chan_at state i) := by
  unfold channels
  rw [List.getElem?_map, List.getElem?_range hi]
  rfl

theorem read_xruns_chan_at (c : sys_consts) (env : sndstat_env) (target_unit : Int)
    (state : xruns_state) (hlen : state.chans.length = MAX_CHANNELS)
    (d : dsp_nv) (pi : pinfo_nv) (cdi : List chan_nv)
    (hsel : selected c env target_unit = some (d, pi)) (hci : pi.chan_info = some cdi)
    (i : Nat) (e : chan_nv) (hi : i < MAX_CHANNELS) (he : cdi[i]? = some e) :
    (chan_at (read_xruns c env target_unit state).2 i).name = strlcpy e.name 256 ∧
    (chan_at (read_xruns c env target_unit state).2 i).direction = chan_direction c e.caps ∧
    (chan_at (read_xruns c env target_unit state).2 i).xruns = e.xruns % 2 ^ 64 := by
  obtain ⟨_, hn, hc, _⟩ := (read_xruns_channels c env target_unit state hlen) d pi cdi hsel hci
  have hlt : i < cdi.length := by
    by_contra hge
    rw [List.getElem?_eq_none (by omega)] at he
    exact absurd he (by simp)
  have hin : i < (read_xruns c env target_unit state).2.nchan := by
    rw [hn]
    unfold MAX_CHANNELS at hi
    omega
  have h := congrArg (fun l => l[i]?) hc
  simp only [List.getElem?_map, channels_getElem? _ i hin, List.getElem?_take, Option.map_some'] at h
  unfold MAX_CHANNELS at hi
  rw [if_pos hi, he] at h
  simp only [Option.map_some', Option.some.injEq, Prod.mk.injEq] at h
  exact h

set_option maxRecDepth 8000 in
/-- C6: the claim fails for a channel name of 256 bytes: the channel of the
snapshot carries its first 255 bytes only. -/
theorem C6_decode_fidelity_counterexample :
    (read_xruns freebsd_consts
      (env_of [dsp_of 0 [112]
        (some [{ name := List.replicate 256 97, caps := 0, xruns := 1 }])] 0)
      0 state_zero).1 = 0 ∧
    (chan_at (read_xruns freebsd_consts
      (env_of [dsp_of 0 [112]
        (some [{ name := List.replicate 256 97, caps := 0, xruns := 1 }])] 0)
      0 state_zero).2 0).name = List.replicate 255 97 ∧
    List.replicate 255 97 ≠ List.replicate 256 97 := by
  decide

/-- C6 (amended): after a successful `read_xruns`, channel i of the snapshot
(i < min(n, 64)) has the first 255 bytes of the name of the i-th channel entry
(the whole name when it is that short), direction 0 (input) exactly when the
capability number of the entry has the bit `PCM_CAP_INPUT` and direction 1
(output) otherwise, and the 64-bit count of the entry; the device name of the
snapshot is the first 63 bytes of the display name of the device entry (the
whole name when it is that short). -/
theorem C6_decode_fidelity_amended (c : sys_consts) (env : sndstat_env) (target_unit : Int)
    (state : xruns_state) (d : dsp_nv) (pi : pinfo_nv) (cdi : List chan_nv)
    (hlen : state.chans.length = MAX_CHANNELS) (hcap : c.PCM_CAP_INPUT < 2 ^ 32)
    (hsel : selected c env target_unit = some (d, pi)) (hci : pi.chan_info = some cdi) :
    (read_xruns c env target_unit state).1 = 0 ∧
    (read_xruns c env target_unit state).2.devname = d.nameunit.take 63 ∧
    (d.nameunit.length ≤ 63 → (read_xruns c env target_unit state).2.devname = d.nameunit) ∧
    (read_xruns c env target_unit state).2.unit = wanted_unit env target_unit ∧
    ∀ (i : Nat) (e : chan_nv), i < 64 → cdi[i]? = some e →
      (chan_at (read_xruns c env target_unit state).2 i).name = e.name.take 255 ∧
      (e.name.length ≤ 255 → (chan_at (read_xruns c env target_unit state).2 i).name = e.name) ∧
      ((chan_at (read_xruns c env target_unit state).2 i).direction = 0 ↔
        e.caps &&& c.PCM_CAP_INPUT ≠ 0) ∧
      ((chan_at (read_xruns c env target_unit state).2 i).direction = 1 ↔
        e.caps &&& c.PCM_CAP_INPUT = 0) ∧
      (e.xruns < 2 ^ 64 → (chan_at (read_xruns c env target_unit state).2 i).xruns = e.xruns) := by
  have hr := read_xruns_success c env target_unit state d pi cdi hsel hci
  have hs := read_chans_channels c cdi 0
    { state with unit := wanted_unit env target_unit,
                 devname := strlcpy d.nameunit 64, nchan := 0 } rfl (Nat.zero_le _) hlen
  have hdev : (read_xruns c env target_unit state).2.devname = d.nameunit.take 63 := by
    rw [hr]
    exact hs.2.2
  refine ⟨by rw [hr], hdev, ?_, ?_, ?_⟩
  · intro hl
    rw [hdev, List.take_of_length_le hl]
  · rw [hr]
    exact hs.2.1
  · intro i e hi he
    obtain ⟨h1, h2, h3⟩ := read_xruns_chan_at c env target_unit state hlen d pi cdi hsel hci i e hi he
    have hdir : chan_direction c e.caps = if e.caps &&& c.PCM_CAP_INPUT ≠ 0 then 0 else 1 := by
      unfold chan_direction
      rw [and_mod_two_pow_32 _ _ hcap]
    refine ⟨h1, ?_, ?_, ?_, ?_⟩
    · intro hl
      rw [h1]
      exact List.take_of_length_le hl
    · rw [h2, hdir]
      by_cases hb : e.caps &&& c.PCM_CAP_INPUT = 0 <;> simp [hb]
    · rw [h2, hdir]
      by_cases hb : e.caps &&& c.PCM_CAP_INPUT = 0 <;> simp [hb]
    · intro hx
      rw [h3, Nat.mod_eq_of_lt hx]

/-- C6 (amended), at a device "pcm0" with a playback channel and a recording
channel. -/
theorem C6_decode_fidelity_amended_witness :
    (read_xruns freebsd_consts
      (env_of [dsp_of 0 [112, 99, 109, 48]
        (some [{ name := [112, 48], caps := 0x20000, xruns := 12 },
               { name := [114, 48], caps := 0x10000, xruns := 0 }])] 0)
      0 state_zero).2.devname = [112, 99, 109, 48] :=
  (C6_decode_fidelity_amended freebsd_consts
    (env_of [dsp_of 0 [112, 99, 109, 48]
      (some [{ name := [112, 48], caps := 0x20000, xruns := 12 },
             { name := [114, 48], caps := 0x10000, xruns := 0 }])] 0)
    0 state_zero
    (dsp_of 0 [112, 99, 109, 48]
      (some [{ name := [112, 48], caps := 0x20000, xruns := 12 },
             { name := [114, 48], caps := 0x10000, xruns := 0 }]))
    { unit := 0, chan_info := some [{ name := [112, 48], caps := 0x20000, xruns := 12 },
                                    { name := [114, 48], caps := 0x10000, xruns := 0 }] }
    [{ name := [112, 48], caps := 0x20000, xruns := 12 },
     { name := [114, 48], caps := 0x10000, xruns := 0 }]
    (by decide) (by decide) (by decide) rfl).2.2.1 (by decide)

/-! ## A failing read_xruns -/

theorem read_xruns_fail (c : sys_consts) (env : sndstat_env) (target_unit : Int)
    (state : xruns_state) (h : (read_xruns c env target_unit state).1 < 0) :
    (selected c env target_unit = none ∧ (read_xruns c env target_unit state).2 = state) ∨
    (∃ d pi, selected c env target_unit = some (d, pi) ∧ pi.chan_info = none ∧
      (read_xruns c env target_unit state).2 =
        { state with unit := wanted_unit env target_unit, devname := strlcpy d.nameunit 64 }) := by
  rw [read_xruns_eq] at h ⊢
  cases hs : selected c env target_unit with
  | none => exact Or.inl ⟨rfl, rfl⟩
  | some r =>
    obtain ⟨d, pi⟩ := r
    rw [hs] at h
    cases hci : pi.chan_info with
    | none =>
      refine Or.inr ⟨d, pi, rfl, hci, ?_⟩
      simp only [hci]
    | some cdi =>
      simp only [hci] at h
      omega

/-- C7: the claim fails in the missing channel-info case: `read_xruns` returns
-1 for a device "pcm1" without channel array, and the state holds unit 1 and the
name "pcm1" instead of the zeroes it held before the call. -/
theorem C7_no_partial_state_counterexample :
    read_xruns freebsd_consts (env_of [dsp_of 1 [112, 99, 109, 49] none] 0) 1 state_zero =
        (-1, { state_zero with unit := 1, devname := [112, 99, 109, 49] }) ∧
      (read_xruns freebsd_consts (env_of [dsp_of 1 [112, 99, 109, 49] none] 0) 1 state_zero).2 ≠
        state_zero := by
  decide

/-- C7 (amended): whenever `read_xruns` fails (returns a negative value), the
channel array and the channel count of the state are as before the call; the
whole state is as before the call when the failure came before a device was
selected, and in the one remaining case, a selected device without channel info,
only `unit` and `devname` have changed, to the unit looked for and the first 63
bytes of the display name of the device. -/
theorem C7_no_partial_state_amended (c : sys_consts) (env : sndstat_env) (target_unit : Int)
    (state : xruns_state) (h : (read_xruns c env target_unit state).1 < 0) :
    (read_xruns c env target_unit state).1 = -1 ∧
    (read_xruns c env target_unit state).2.chans = state.chans ∧
    (read_xruns c env target_unit state).2.nchan = state.nchan ∧
    (selected c env target_unit = none → (read_xruns c env target_unit state).2 = state) ∧
    (∀ d pi, selected c env target_unit = some (d, pi) →
      pi.chan_info = none ∧
      (read_xruns c env target_unit state).2 =
        { state with unit := wanted_unit env target_unit, devname := d.nameunit.take 63 }) := by
  have h1 : (read_xruns c env target_unit state).1 = -1 := by
    rw [read_xruns_eq] at h ⊢
    cases hs : selected c env target_unit with
    | none => rfl
    | some r =>
      obtain ⟨d, pi⟩ := r
      rw [hs] at h
      cases hci : pi.chan_info with
      | none => simp only [hci]
      | some cdi =>
        simp only [hci] at h
        omega
  rcases read_xruns_fail c env target_unit state h with ⟨hs, hr⟩ | ⟨d, pi, hs, hci, hr⟩
  · refine ⟨h1, by rw [hr], by rw [hr], fun _ => hr, ?_⟩
    intro d pi hs2
    rw [hs] at hs2
    exact absurd hs2 (by simp)
  · refine ⟨h1, by rw [hr], by rw [hr], ?_, ?_⟩
    · intro hs2
      rw [hs] at hs2
      exact absurd hs2 (by simp)
    · intro d2 pi2 hs2
      rw [hs] at hs2
      cases hs2
      exact ⟨hci, hr⟩

/-- C7 (amended), at a failing `open`: the state is untouched. -/
theorem C7_no_partial_state_amended_witness :
    (read_xruns freebsd_consts
      { env_of [dsp_of 0 [112, 99, 109, 48] none] 0 with open_ok := false } 0
      (snapshot [chan [97] 1 5])).2 = snapshot [chan [97] 1 5] :=
  (C7_no_partial_state_amended freebsd_consts
    { env_of [dsp_of 0 [112, 99, 109, 48] none] 0 with open_ok := false } 0
    (snapshot [chan [97] 1 5]) (by decide)).2.2.2.1 (by decide)

/-! ## The loop of watch_xruns -/

theorem read_xruns_fst_indep (c : sys_consts) (env : sndstat_env) (target_unit : Int)
    (s1 s2 : xruns_state) :
    (read_xruns c env target_unit s1).1 = (read_xruns c env target_unit s2).1 := by
  rw [read_xruns_eq, read_xruns_eq]
  cases selected c env target_unit with
  | none => rfl
  | some r =>
    obtain ⟨d, pi⟩ := r
    cases hci : pi.chan_info <;> simp only [hci]

theorem read_xruns_snd_congr (c : sys_consts) (env : sndstat_env) (target_unit : Int)
    (s1 s2 : xruns_state) (hch : s1.chans = s2.chans)
    (hok : ¬ (read_xruns c env target_unit s1).1 < 0) :
    (read_xruns c env target_unit s1).2 = (read_xruns c env target_unit s2).2 := by
  rw [read_xruns_eq] at hok ⊢
  rw [read_xruns_eq]
  cases hs : selected c env target_unit with
  | none =>
    rw [hs] at hok
    exact absurd (by decide : (-1 : Int) < 0) hok
  | some r =>
    obtain ⟨d, pi⟩ := r
    rw [hs] at hok
    cases hci : pi.chan_info with
    | none =>
      simp only [hci] at hok
      omega
    | some cdi =>
      simp only [hci, hch]

theorem watch_step_fail (c : sys_consts) (target_unit : Int) (play_only : Bool) (t : tick)
    (v : watch_vars) (h : (read_xruns c t.env target_unit v.state).1 < 0) :
    (watch_step c target_unit play_only t v).2 = [] ∧
    (watch_step c target_unit play_only t v).1.prev_state = v.prev_state ∧
    (watch_step c target_unit play_only t v).1.first_run = v.first_run ∧
    (watch_step c target_unit play_only t v).1.state.chans = v.state.chans := by
  unfold watch_step
  simp only [h, if_true]
  refine ⟨trivial, trivial, trivial, ?_⟩
  rcases read_xruns_fail c t.env target_unit v.state h with ⟨_, hr⟩ | ⟨d, pi, _, _, hr⟩ <;>
    rw [hr]

theorem watch_step_same (c : sys_consts) (target_unit : Int) (play_only : Bool) (t : tick)
    (v w : watch_vars) (h : same_baseline v w) :
    (watch_step c target_unit play_only t v).2 = (watch_step c target_unit play_only t w).2 ∧
    same_baseline (watch_step c target_unit play_only t v).1
      (watch_step c target_unit play_only t w).1 := by
  obtain ⟨h1, h2, h3⟩ := h
  have hfst := read_xruns_fst_indep c t.env target_unit v.state w.state
  by_cases hf : (read_xruns c t.env target_unit v.state).1 < 0
  · have hf2 : (read_xruns c t.env target_unit w.state).1 < 0 := by rw [← hfst]; exact hf
    obtain ⟨a1, a2, a3, a4⟩ := watch_step_fail c target_unit play_only t v hf
    obtain ⟨b1, b2, b3, b4⟩ := watch_step_fail c target_unit play_only t w hf2
    refine ⟨by rw [a1, b1], ?_, ?_, ?_⟩
    · rw [a4, b4, h1]
    · rw [a2, b2, h2]
    · rw [a3, b3, h3]
  · have hf2 : ¬ (read_xruns c t.env target_unit w.state).1 < 0 := by rw [← hfst]; exact hf
    have hsnd := read_xruns_snd_congr c t.env target_unit v.state w.state h1 hf
    unfold watch_step
    simp only [hf, hf2, if_false]
    rw [hsnd, h2, h3]
    exact ⟨rfl, rfl, rfl, rfl⟩

theorem read_ok_false_iff (c : sys_consts) (target_unit : Int) (t : tick) (s : xruns_state) :
    read_ok c target_unit t = false ↔ (read_xruns c t.env target_unit s).1 < 0 := by
  unfold read_ok
  rw [read_xruns_fst_indep c t.env target_unit state_zero s]
  simp

theorem watch_run_skip_failed (c : sys_consts) (target_unit : Int) (play_only : Bool)
    (ticks : List tick) :
    ∀ (v w : watch_vars), same_baseline v w →
      ((ticks.zip (watch_run c target_unit play_only ticks v)).filter
          (fun p => read_ok c target_unit p.1)).map Prod.snd =
        watch_run c target_unit play_only (ticks.filter (read_ok c target_unit)) w := by
  induction ticks with
  | nil => intro v w _; rfl
  | cons t rest ih =>
    intro v w hvw
    rw [watch_run, List.zip_cons_cons, List.filter_cons, List.filter_cons]
    by_cases hok : read_ok c target_unit t = true
    · simp only [hok, if_true, List.map_cons, watch_run]
      obtain ⟨e1, e2⟩ := watch_step_same c target_unit play_only t v w hvw
      rw [e1, ih _ _ e2]
    · simp only [hok]
      have hf := (read_ok_false_iff c target_unit t v.state).mp (by simpa using hok)
      obtain ⟨_, a2, a3, a4⟩ := watch_step_fail c target_unit play_only t v hf
      exact ih _ _ ⟨a4.trans hvw.1, a2.trans hvw.2.1, a3.trans hvw.2.2⟩

/-- C9: an iteration of the loop of `watch_xruns` whose `read_xruns` call fails
prints nothing and leaves `prev_state` and `first_run` as they were; the
iteration after it prints what it would have printed without the failed one;
and over every sequence of ticks, the lines printed at the successful ticks are
those the loop prints when the failed ticks are left out, the failed ticks
printing nothing. -/
theorem C9_failed_read_keeps_baseline (c : sys_consts) (target_unit : Int) (play_only : Bool) :
    (∀ (t : tick) (v : watch_vars), (read_xruns c t.env target_unit v.state).1 < 0 →
      (watch_step c target_unit play_only t v).2 = [] ∧
      (watch_step c target_unit play_only t v).1.prev_state = v.prev_state ∧
      (watch_step c target_unit play_only t v).1.first_run = v.first_run) ∧
    (∀ (tf t : tick) (v : watch_vars), (read_xruns c tf.env target_unit v.state).1 < 0 →
      (watch_step c target_unit play_only t (watch_step c target_unit play_only tf v).1).2 =
        (watch_step c target_unit play_only t v).2) ∧
    (∀ (ticks : List tick) (v : watch_vars),
      ((ticks.zip (watch_run c target_unit play_only ticks v)).filter
          (fun p => read_ok c target_unit p.1)).map Prod.snd =
        watch_run c target_unit play_only (ticks.filter (read_ok c target_unit)) v) ∧
    (∀ (ticks : List tick) (v : watch_vars),
      ∀ p ∈ ticks.zip (watch_run c target_unit play_only ticks v),
        read_ok c target_unit p.1 = false → p.2 = []) := by
  refine ⟨?_, ?_, ?_, ?_⟩
  · intro t v h
    obtain ⟨a1, a2, a3, _⟩ := watch_step_fail c target_unit play_only t v h
    exact ⟨a1, a2, a3⟩
  · intro tf t v h
    obtain ⟨_, a2, a3, a4⟩ := watch_step_fail c target_unit play_only tf v h
    exact (watch_step_same c target_unit play_only t _ v ⟨a4, a2, a3⟩).1
  · intro ticks v
    exact watch_run_skip_failed c target_unit play_only ticks v v ⟨rfl, rfl, rfl⟩
  · intro ticks
    induction ticks with
    | nil => intro v p hp; exact absurd hp (by simp [watch_run])
    | cons t rest ih =>
      intro v p hp hno
      rw [watch_run, List.zip_cons_cons, List.mem_cons] at hp
      rcases hp with hp | hp
      · subst hp
        have hf := (read_ok_false_iff c target_unit t v.state).mp hno
        exact (watch_step_fail c target_unit play_only t v hf).1
      · exact ih _ p hp hno

/-- C9, at a failed tick between a tick with "a" at 2 and a tick with "a" at 5:
the failed tick prints nothing and keeps the baseline. -/
theorem C9_failed_read_keeps_baseline_witness :
    (watch_step freebsd_consts 0 false
        { env := { env_of [] 0 with open_ok := false }, clock := fun _ => [] }
        { state := snapshot [chan [97] 1 2], prev_state := snapshot [chan [97] 1 2],
          first_run := false }).2 = [] ∧
      (watch_step freebsd_consts 0 false
        { env := { env_of [] 0 with open_ok := false }, clock := fun _ => [] }
        { state := snapshot [chan [97] 1 2], prev_state := snapshot [chan [97] 1 2],
          first_run := false }).1.prev_state = snapshot [chan [97] 1 2] ∧
      (watch_step freebsd_consts 0 false
        { env := { env_of [] 0 with open_ok := false }, clock := fun _ => [] }
        { state := snapshot [chan [97] 1 2], prev_state := snapshot [chan [97] 1 2],
          first_run := false }).1.first_run = false :=
  (C9_failed_read_keeps_baseline freebsd_consts 0 false).1
    { env := { env_of [] 0 with open_ok := false }, clock := fun _ => [] }
    { state := snapshot [chan [97] 1 2], prev_state := snapshot [chan [97] 1 2],
      first_run := false } (by decide)

/-! ## The option -d of main -/

theorem main_opts_cons (ch : Char) (optarg : CStr) (rest : List (Char × CStr)) (v : main_vars) :
    main_opts ((ch, optarg) :: rest) v =
      if ch = 'd' then
        if atoi optarg < 0 then .error (.errx 1 optarg)
        else main_opts rest { v with target_unit := atoi optarg }
      else if ch = 'i' then
        main_opts rest { v with interval := if atoi optarg < 1 then 1 else atoi optarg }
      else if ch = 'p' then main_opts rest { v with play_only := true }
      else if ch = 'w' then main_opts rest { v with watch_mode := true }
      else .error (.usage 1) := by
  rw [main_opts]

theorem main_opts_append (pre rest : List (Char × CStr)) :
    ∀ (v0 v : main_vars), main_opts pre v0 = .ok v →
      main_opts (pre ++ rest) v0 = main_opts rest v := by
  induction pre with
  | nil =>
    intro v0 v h
    cases h
    rfl
  | cons o pre ih =>
    intro v0 v h
    obtain ⟨ch, optarg⟩ := o
    rw [List.cons_append, main_opts_cons]
    rw [main_opts_cons] at h
    by_cases hd : ch = 'd'
    · simp only [hd, if_true] at h ⊢
      by_cases hn : atoi optarg < 0
      · simp only [hn, if_true] at h
        exact absurd h (by simp)
      · simp only [hn, if_false] at h ⊢
        exact ih _ _ h
    · simp only [hd, if_false] at h ⊢
      by_cases hi : ch = 'i'
      · simp only [hi, if_true] at h ⊢
        exact ih _ _ h
      · simp only [hi, if_false] at h ⊢
        by_cases hp : ch = 'p'
        · simp only [hp, if_true] at h ⊢
          exact ih _ _ h
        · simp only [hp, if_false] at h ⊢
          by_cases hw : ch = 'w'
          · simp only [hw, if_true] at h ⊢
            exact ih _ _ h
          · simp only [hw, if_false] at h
            exact absurd h (by simp)

theorem digits_val_all (ds : List Nat) :
    ∀ acc, all_digits ds →
      digits_val ds acc = ds.foldl (fun acc b => 10 * acc + (b - 48)) acc := by
  induction ds with
  | nil => intro acc _; rfl
  | cons b ds ih =>
    intro acc h
    have hb := h b (List.mem_cons_self _ _)
    unfold digits_val
    have : (decide (48 ≤ b) && decide (b ≤ 57)) = true := by simp [hb.1, hb.2]
    rw [if_pos this, List.foldl_cons]
    exact ih _ (fun x hx => h x (List.mem_cons_of_mem _ hx))

theorem to_int_of_small (n : Int) (h1 : -(2 ^ 31) ≤ n) (h2 : n < 2 ^ 31) : to_int n = n := by
  unfold to_int
  simp only
  split <;> omega

theorem strtol10_digits (ds : List Nat) (h : all_digits ds) :
    strtol10 ds = min (dec_val ds : Int) (2 ^ 63 - 1) := by
  unfold strtol10 dec_val
  cases ds with
  | nil => rfl
  | cons b r =>
    have hb := h b (List.mem_cons_self _ _)
    have hsp : isspace b = false := by
      unfold isspace
      have h1 : (b == 32) = false := by simp; omega
      have h2 : decide (b ≤ 13) = false := by simp; omega
      rw [h1, h2]
      simp
    rw [List.dropWhile_cons, hsp]
    simp only [Bool.false_eq_true, if_false]
    split
    · rename_i heq
      have := (List.cons.inj heq).1
      omega
    · rename_i heq
      have := (List.cons.inj heq).1
      omega
    · rw [digits_val_all _ _ h]

theorem strtol10_minus_digits (ds : List Nat) (h : all_digits ds) :
    strtol10 (45 :: ds) = max (-(dec_val ds : Int)) (-(2 ^ 63)) := by
  unfold strtol10 dec_val
  have hsp : isspace 45 = false := by decide
  rw [List.dropWhile_cons, hsp]
  simp only [Bool.false_eq_true, if_false]
  rw [digits_val_all _ _ h]

theorem atoi_no_number (s : CStr)
    (h : s = [] ∨ ∃ b r, s = b :: r ∧ isspace b = false ∧ b ≠ 45 ∧ b ≠ 43 ∧ ¬ (48 ≤ b ∧ b ≤ 57)) :
    atoi s = 0 := by
  rcases h with h | ⟨b, r, h, hsp, h45, h43, hdig⟩
  · subst h
    decide
  · subst h
    unfold atoi strtol10
    rw [List.dropWhile_cons, hsp]
    simp only [Bool.false_eq_true, if_false]
    have hz : digits_val (b :: r) 0 = 0 := by
      unfold digits_val
      have : (decide (48 ≤ b) && decide (b ≤ 57)) = false := by
        simp only [Bool.and_eq_false_iff, decide_eq_false_iff_not]
        omega
      rw [this]
      rfl
    split
    · rename_i heq
      exact absurd (List.cons.inj heq).1 h45
    · rename_i heq
      exact absurd (List.cons.inj heq).1 h43
    · rw [hz]
      decide

theorem main_opts_d (optarg : CStr) (rest : List (Char × CStr)) (v : main_vars) :
    (atoi optarg < 0 → main_opts (('d', optarg) :: rest) v = .error (.errx 1 optarg)) ∧
    (0 ≤ atoi optarg →
      main_opts (('d', optarg) :: rest) v =
        main_opts rest { v with target_unit := atoi optarg }) := by
  constructor
  · intro h
    rw [main_opts_cons]
    simp only [if_true, h]
  · intro h
    rw [main_opts_cons]
    have : ¬ atoi optarg < 0 := by omega
    simp only [if_true, this, if_false]

theorem atoi_minus_digits (ds : List Nat) (hd : all_digits ds) (h0 : 0 < dec_val ds)
    (h31 : dec_val ds ≤ 2 ^ 31) : atoi (45 :: ds) = -(dec_val ds : Int) := by
  unfold atoi
  rw [strtol10_minus_digits ds hd]
  have h1 : (dec_val ds : Int) ≤ 2 ^ 31 := by exact_mod_cast h31
  have h2 : (0 : Int) < dec_val ds := by exact_mod_cast h0
  rw [max_eq_left (by omega)]
  exact to_int_of_small _ (by omega) (by omega)

theorem atoi_digits (ds : List Nat) (hd : all_digits ds) (h31 : dec_val ds < 2 ^ 31) :
    atoi ds = (dec_val ds : Int) := by
  unfold atoi
  rw [strtol10_digits ds hd]
  have h1 : (dec_val ds : Int) < 2 ^ 31 := by exact_mod_cast h31
  rw [min_eq_left (by omega)]
  exact to_int_of_small _ (by omega) (by omega)

/-- C8: `main` at arguments of `-d` that are not non-negative decimal integers.
The argument "-1" ends in `errx(1, "invalid device number: -1")`, as the claim
says. The arguments "abc" and "" do not: `atoi` gives 0, the option loop goes on
with unit 0, and `main` reads pcm0, prints its channels and returns 0. The
negative number "-4294967296" is accepted as unit 0 in the same way, because
its conversion to `int` is 0. -/
theorem C8_device_number_failing_input :
    main freebsd_consts
        (env_of [dsp_of 0 (cstr "pcm0") (some [{ name := cstr "p0", caps := 0, xruns := 12 }])] 1)
        [('d', cstr "-1")] = .errx 1 (cstr "-1") ∧
    atoi (cstr "abc") = 0 ∧
    main freebsd_consts
        (env_of [dsp_of 0 (cstr "pcm0") (some [{ name := cstr "p0", caps := 0, xruns := 12 }])] 1)
        [('d', cstr "abc")] =
      .ret 0 [.header (cstr "pcm0"), .line none (cstr "p0") 12] ∧
    main freebsd_consts
        (env_of [dsp_of 0 (cstr "pcm0") (some [{ name := cstr "p0", caps := 0, xruns := 12 }])] 1)
        [('d', [])] =
      .ret 0 [.header (cstr "pcm0"), .line none (cstr "p0") 12] ∧
    main freebsd_consts
        (env_of [dsp_of 0 (cstr "pcm0") (some [{ name := cstr "p0", caps := 0, xruns := 12 }])] 1)
        [('d', cstr "abc"), ('w', [])] = .watch 0 false 1 ∧
    atoi (cstr "-4294967296") = 0 ∧
    main freebsd_consts
        (env_of [dsp_of 0 (cstr "pcm0") (some [{ name := cstr "p0", caps := 0, xruns := 12 }])] 1)
        [('d', cstr "-4294967296")] =
      .ret 0 [.header (cstr "pcm0"), .line none (cstr "p0") 12] := by
  decide

end Xruns
